import Mathlib


/-!
Verification of the crawl engine of `server-admin-brainstorm-ai`
(file `backend/crawler.py`, class `WebCrawler`) against its
natural-language specification.

The Python code is shallowly embedded: pure helpers become Lean
functions on `List Char` / `String`; stateful methods become explicit
state-passing functions; the environment (HTTP responses, external
collaborators such as `trafilatura.extract`, `langdetect.detect` and
`robotparser.can_fetch`) is passed in as explicit data or oracles.
-/

/- ### Python string primitives

`pyLower` models `str.lower` (per-character lowering, adequate for the
ASCII keyword tables of the crawler).  `pyCount` models Python
`str.count`: the number of non-overlapping occurrences of `needle`,
scanning left to right; `"".count` conventions follow Python
(`hay.count("") = len(hay) + 1`).  `pyInStr` models the Python `in`
substring test. -/

def pyLower (s : List Char) : List Char := s.map Char.toLower


def pyCountGo (needle : List Char) : List Char → Nat → Nat
  | [], _ => 0
  | c :: rest, skip =>
    match skip with
    | n + 1 => pyCountGo needle rest n
    | 0 =>
      if needle.isPrefixOf (c :: rest) then 1 + pyCountGo needle rest (needle.length - 1)
      else pyCountGo needle rest 0


def pyCount (needle hay : List Char) : Nat :=
  if needle = [] then hay.length + 1 else pyCountGo needle hay 0


def pyCountS (needle hay : String) : Nat := pyCount needle.toList hay.toList


def pyInStr (needle hay : String) : Bool := pyCountS needle hay != 0


def pyEndsWith (s suffix : String) : Bool := suffix.toList.isSuffixOf s.toList


/- ### Topic classification (`WebCrawler._classify_topic`, crawler.py 267-287)

`topic_mapping` is the keyword table from `WebCrawler.__init__`
(crawler.py 35-47), in declaration order (Python dicts preserve
insertion order). -/

def topic_mapping : List (String × List String) :=
  [("linux", ["linux", "ubuntu", "centos", "debian", "rhel", "bash", "shell"]),
   ("networking", ["network", "tcp", "ip", "dns", "dhcp", "vpn", "firewall"]),
   ("mysql", ["mysql", "mariadb", "database", "sql", "innodb"]),
   ("apache", ["apache", "httpd", "mod_rewrite", "virtual host"]),
   ("security", ["security", "ssl", "tls", "encryption", "vulnerability"]),
   ("dns", ["dns", "bind", "nameserver", "domain", "zone"]),
   ("vmware", ["vmware", "esxi", "vcenter", "virtualization"]),
   ("cloud", ["aws", "azure", "gcp", "cloud", "ec2", "s3"]),
   ("email", ["email", "postfix", "exim", "dovecot", "smtp"]),
   ("web_troubleshooting", ["troubleshoot", "debug", "error", "performance"]),
   ("vulnerabilities", ["cve", "exploit", "patch", "malware", "rootkit"])]


/-- The per-topic score loop of `_classify_topic`:
`score += text_lower.count(keyword); score += url_lower.count(keyword) * 2`. -/
def topicScoreCode (text_lower url_lower : List Char) (keywords : List String) : Nat :=
  keywords.foldl
    (fun score keyword =>
      score + pyCount keyword.toList text_lower + pyCount keyword.toList url_lower * 2) 0


/-- One step of Python `max(topic_scores, key=topic_scores.get)`: the running
best is replaced only on a strictly greater value, so the first maximal
element (in iteration order) wins. -/
def pyArgmaxStep (best y : String × Nat) : String × Nat := if best.2 < y.2 then y else best


/-- Python `max(topic_scores, key=topic_scores.get)` over an association list
in iteration order (`none` on an empty dict, where Python would raise). -/
def pyMaxByValue (l : List (String × Nat)) : Option (String × Nat) :=
  match l with
  | [] => none
  | x :: xs => some (xs.foldl pyArgmaxStep x)


/-- Embedding of `WebCrawler._classify_topic` (crawler.py 267-287). -/
def classify_topic (text url : String) : Option String :=
  let text_lower := pyLower text.toList
  let url_lower := pyLower url.toList
  let topic_scores := topic_mapping.map (fun p => (p.1, topicScoreCode text_lower url_lower p.2))
  match pyMaxByValue topic_scores with
  | some best => if 2 < best.2 then some best.1 else none
  | none => none


/- ### Spec-side classifier (section 4.6 of the spec, for refinement)

Score of a topic: sum over its keyword set of (case-insensitive substring
count in text) + 2 x (case-insensitive substring count in url); pick the
max-scoring topic with ties broken by declaration order; return it only
when its score is strictly greater than 2. -/

def specTopicScore (text url : String) (keywords : List String) : Nat :=
  (keywords.map
    (fun kw => pyCount kw.toList (pyLower text.toList)
      + 2 * pyCount kw.toList (pyLower url.toList))).sum


def specMaxScore (scores : List (String × Nat)) : Nat := (scores.map Prod.snd).foldr max 0


/-- First entry attaining the maximal score, in declaration order. -/
def specFirstBest (scores : List (String × Nat)) : Option (String × Nat) :=
  scores.find? (fun p => p.2 == specMaxScore scores)


def classify_topic_spec (text url : String) : Option String :=
  let scores := topic_mapping.map (fun p => (p.1, specTopicScore text url p.2))
  match specFirstBest scores with
  | some best => if 2 < best.2 then some best.1 else none
  | none => none


/- ### URL parsing (`urllib.parse.urlparse`, as used by `_is_safe_url`)

Model of `urlsplit`: a leading `scheme:` (first char alphabetic, remaining
chars alphanumeric or one of `+ - .`, lowered), then `//netloc` where the
netloc extends to the first of `/ ? #`.  `urlsplit` raises ValueError on a
netloc with mismatched `[` `]` brackets, and on a bracketed host that is
neither a valid IPv6 literal nor an IPvFuture `v<hex>.<chars>` form
(CPython `_check_bracketed_host`); `pyUrlparse` returns `none` there, and
`_is_safe_url`'s outer `except` turns that into a fail-closed False.  The
hostname is the netloc with any `user@` prefix removed (split at the last
`@`), either the part of the first bracketed `[...]` group or the part
before the first `:`, lowercased, and `none` when empty. -/

structure PageData where
  ctype : String
  clen : Option Nat
  metaRobots : Option String
  html : String
  extracted : Option String
  lang : Except Unit String


inductive PageOutcome where
  | saved (topic : String)
  | skip (reason : String)
deriving DecidableEq


/-- Embedding of `WebCrawler._process_page` (crawler.py 227-265): the
no-content, too-short, language and classification steps. -/
def process_page (url : String) (p : PageData) : PageOutcome :=
  if p.html = "" then .skip "no-content"
  else
    match p.extracted with
    | none => .skip "too-short"
    | some text =>
      if text.length < 500 then .skip "too-short"
      else
        match p.lang with
        | .error _ => .skip "lang-detect-failed"
        | .ok lang =>
          if lang ≠ "en" then .skip "non-english"
          else .saved ((classify_topic text url).getD "general")


/-- The meta-robots guard of `process_link` (crawler.py 199-205). -/
def metaRobotsGate (url : String) (p : PageData) : PageOutcome :=
  match p.metaRobots with
  | some content =>
    if pyCount "noindex".toList (pyLower content.toList) != 0
        || pyCount "nofollow".toList (pyLower content.toList) != 0 then .skip "meta-robots"
    else process_page url p
  | none => process_page url p


/-- The page gate: the content-type, content-length and meta-robots guards
of `process_link` (crawler.py 189-205) followed by `_process_page`. -/
def pageGate (url : String) (p : PageData) : PageOutcome :=
  if !(pyInStr "text/html" p.ctype) then .skip "non-html"
  else
    match p.clen with
    | some n => if 1000000 < n then .skip "too-large" else metaRobotsGate url p
    | none => metaRobotsGate url p


/- ### Database writes issued by the crawler (via the `Database` collaborator) -/

inductive DbWrite where
  | createTask (id status : String)
  | taskStatus (id status : String)
  | progress (id : String) (value : ℚ)
  | article (url content topic : String)
deriving DecidableEq


/-- Database writes of the page pipeline: a successful page is persisted
with `save_article(url, text, topic)` (crawler.py 258); every skip
persists nothing. -/
def pageWrites (url : String) (p : PageData) : List DbWrite :=
  match pageGate url p, p.extracted with
  | .saved topic, some text => [DbWrite.article url text topic]
  | _, _ => []


/- ### Fetch with retry (`process_link` retry loop, crawler.py 175-212)

One `FetchOutcome` per attempt: either an HTTP exchange completed with a
status and response data, or a transport-level exception was raised.
`LinkTrace` records the loop's result, the backoff sleeps performed (in
seconds, as exact rationals) and the number of `fetch.backoff` events
logged.  The loop body never propagates an exception and never marks the
task failed: every path ends in a `LinkResult`. -/

inductive FetchOutcome where
  | resp (status : Nat) (page : PageData)
  | exc


inductive LinkResult where
  | done (outcome : PageOutcome)
  | fetchError (status : Nat)
  | exhausted
deriving DecidableEq


structure LinkTrace where
  result : LinkResult
  sleeps : List ℚ
  backoffLogs : Nat
deriving DecidableEq


/-- The `for attempt in range(3)` loop of `process_link` over the remaining
attempts: 429/403 logs a backoff event, sleeps `backoff`, doubles it and
retries; other statuses at least 400 abandon with no retry; a transport
exception sleeps `backoff`, doubles it and retries; a successful response
enters the page gate; an empty attempt list means the loop exhausted its
3 attempts and gave up silently. -/
def runRetryLoop (url : String) : List FetchOutcome → ℚ → LinkTrace
  | [], _ => ⟨.exhausted, [], 0⟩
  | o :: rest, backoff =>
    match o with
    | .exc =>
      let t := runRetryLoop url rest (backoff * 2)
      ⟨t.result, backoff :: t.sleeps, t.backoffLogs⟩
    | .resp status page =>
      if status = 429 ∨ status = 403 then
        let t := runRetryLoop url rest (backoff * 2)
        ⟨t.result, backoff :: t.sleeps, t.backoffLogs + 1⟩
      else if 400 ≤ status then ⟨.fetchError status, [], 0⟩
      else ⟨.done (pageGate url page), [], 0⟩


/-- Embedding of the retry portion of `process_link` (crawler.py 175-212):
`backoff = 1.0`, at most 3 attempts, the environment supplies the outcome
of attempt `i` as `env i`. -/
def process_link (url : String) (env : Nat → FetchOutcome) : LinkTrace :=
  runRetryLoop url [env 0, env 1, env 2] 1


/-- A concrete non-HTML page used to exercise the gate. -/
def pageNonHtml : PageData :=
  ⟨"text/plain", none, none, "", none, Except.error ()⟩


/-- A concrete page for the retry-loop theorems. -/
def pageEx : PageData :=
  ⟨"text/html", none, none, "", none, Except.error ()⟩


/- ### Robots policy cache (`WebCrawler._get_robots`, crawler.py 355-374,
and `WebCrawler._allowed_by_robots`, crawler.py 397-403)

A `RobotsPolicy` is the parsed `RobotFileParser`, abstracted to its
`can_fetch` behaviour for the configured user agent; `Except.error`
models `can_fetch` raising.  `emptyPolicy` is `rp.parse("")`: an empty
rule set allows every URL.  The environment supplies the outcome of the
robots.txt fetch per URL and the parser for non-failure bodies. -/

structure RobotsPolicy where
  canFetch : String → Except Unit Bool


def emptyPolicy : RobotsPolicy := ⟨fun _ => .ok true⟩


inductive RobotsFetch where
  | resp (status : Nat) (lines : List String)
  | exc


structure RobotsEnv where
  respect : Bool
  fetch : String → RobotsFetch
  parseLines : List String → RobotsPolicy


def robotsUrl (scheme netloc : String) : String :=
  scheme ++ "://" ++ netloc ++ "/robots.txt"


/-- Embedding of `WebCrawler._get_robots` (crawler.py 355-374): returns the
policy, the updated per-host cache and whether a robots.txt fetch was
issued. -/
def get_robots (env : RobotsEnv) (cache : List (String × RobotsPolicy))
    (scheme netloc : String) :
    Option RobotsPolicy × List (String × RobotsPolicy) × Bool :=
  if env.respect = false then (none, cache, false)
  else
    match cache.find? (fun e => e.1 == netloc) with
    | some e => (some e.2, cache, false)
    | none =>
      let rp :=
        match env.fetch (robotsUrl scheme netloc) with
        | .resp status lines => if 400 ≤ status then emptyPolicy else env.parseLines lines
        | .exc => emptyPolicy
      (some rp, (netloc, rp) :: cache, true)


/-- Embedding of `WebCrawler._allowed_by_robots` (crawler.py 397-403). -/
def allowed_by_robots (respect : Bool) (rp : Option RobotsPolicy) (url : String) : Bool :=
  match respect, rp with
  | false, _ => true
  | true, none => true
  | true, some p =>
    match p.canFetch url with
    | .ok b => b
    | .error _ => false


/-- A sequence of `_get_robots` calls threading the cache, recording the
hosts for which a robots.txt fetch was issued. -/
def runRobotsRequests (env : RobotsEnv) :
    List (String × String) → List (String × RobotsPolicy) → List String →
    List (String × RobotsPolicy) × List String
  | [], cache, fetched => (cache, fetched)
  | (scheme, netloc) :: rest, cache, fetched =>
    let r := get_robots env cache scheme netloc
    runRobotsRequests env rest r.2.1 (if r.2.2 then netloc :: fetched else fetched)


/-- A robots environment whose robots.txt fetch always raises. -/
def robotsEnvExc : RobotsEnv := ⟨true, fun _ => .exc, fun _ => emptyPolicy⟩


/-- A policy whose `can_fetch` always raises. -/
def errPolicy : RobotsPolicy := ⟨fun _ => .error ()⟩


/- ### Crawler orchestration state (`WebCrawler.start_crawl` crawler.py 71-81,
`WebCrawler.stop_crawl` crawler.py 83-88, `WebCrawler.run_crawl`
crawler.py 90-126)

The task store mirrors the `crawl_tasks` table: `create_crawl_task`
inserts a row with the given status and progress 0;
`update_crawl_task` updates the status of the matching row. -/

structure TaskRec where
  status : String
  progress : ℚ
deriving DecidableEq


structure CrawlerState where
  is_running : Bool
  current_task_id : Option String
  tasks : List (String × TaskRec)
deriving DecidableEq


def update_task (tasks : List (String × TaskRec)) (tid status : String) :
    List (String × TaskRec) :=
  tasks.map (fun e => if e.1 = tid then (e.1, ⟨status, e.2.progress⟩) else e)


/-- Embedding of `WebCrawler.start_crawl` (crawler.py 71-81): the result is
`Except.error` when the crawler is already running (the raised
exception), otherwise the fresh task id; the second component is the
state after the call. -/
def start_crawl (s : CrawlerState) (newId : String) :
    Except String String × CrawlerState :=
  if s.is_running then (.error "Crawler is already running", s)
  else
    (.ok newId,
      { is_running := true, current_task_id := some newId,
        tasks := (newId, ⟨"started", 0⟩) :: s.tasks })


/-- Embedding of `WebCrawler.stop_crawl` (crawler.py 83-88): sets
`is_running` false, writes a stopped status only when a current task id
is set, then clears the current task id; also returns the task-store
writes performed. -/
def stop_crawl (s : CrawlerState) : CrawlerState × List DbWrite :=
  match s.current_task_id with
  | some tid =>
    ({ is_running := false, current_task_id := none,
       tasks := update_task s.tasks tid "stopped" },
     [DbWrite.taskStatus tid "stopped"])
  | none =>
    ({ is_running := false, current_task_id := none, tasks := s.tasks }, [])


/- ### The per-task loop of `run_crawl` (crawler.py 90-126)

`running i` is the value of `self.is_running` observed by the loop check
before seed site `i` (a stop request flips it to false); `excAt = some i`
models an exception escaping the try block during iteration `i` (after
`_crawl_site`, which catches its own errors, e.g. from the progress
update).  The loop: break when the flag is false, otherwise crawl the
site and write progress `((i+1)/total) * 100`; after the loop the task is
marked completed, an escaping exception marks it failed, and the
`finally` block always clears the flag, the current task id and the HTTP
client. -/

def runLoopGo (n : Nat) (running : Nat → Bool) (excAt : Option Nat) :
    List String → Nat → List String × List ℚ × String
  | [], _ => ([], [], "completed")
  | t :: rest, i =>
    if running i = false then ([], [], "completed")
    else if excAt = some i then ([t], [], "failed")
    else
      let r := runLoopGo n running excAt rest (i + 1)
      (t :: r.1, ((i + 1 : ℚ) / (n : ℚ)) * 100 :: r.2.1, r.2.2)


structure RunResult where
  processedSites : List String
  progressWrites : List ℚ
  finalStatus : String
  finalRunning : Bool
  finalTaskId : Option String
  clientReleased : Bool


/-- Embedding of `WebCrawler.run_crawl` (crawler.py 90-126): the loop over
`crawl_targets` plus the `finally` finalizer, which on every exit path
clears the running flag and current task id and closes the client. -/
def run_crawl (targets : List String) (running : Nat → Bool) (excAt : Option Nat) :
    RunResult :=
  let r := runLoopGo targets.length running excAt targets 0
  ⟨r.1, r.2.1, r.2.2, false, none, true⟩


/- ### The per-site link scheduler of `_crawl_site` (crawler.py 214-221)

The scheduling loop runs `await sem.acquire();
tasks.append(asyncio.create_task(process_link(link))); sem.release()`
for each link, then awaits every task.  In the step relation below,
`spawn` is one iteration of that loop: it requires a semaphore permit
(`1 ≤ semCount`) and returns it immediately, so the semaphore value is
unchanged across the step; the spawned `process_link` unit never touches
the semaphore, so `finish` can occur at any later point; `joinAll` is
the completion of the `for t in tasks: await t` loop, possible only once
every spawned unit has finished. -/

structure SchedState where
  pending : List String
  semCount : Nat
  inFlight : List String
  finished : List String
  joined : Bool
deriving DecidableEq


inductive SchedStep : SchedState → SchedState → Prop where
  | spawn (s : SchedState) (l : String) (rest : List String) :
      s.pending = l :: rest → 1 ≤ s.semCount → s.joined = false →
      SchedStep s { s with pending := rest, inFlight := l :: s.inFlight }
  | finish (s : SchedState) (l : String) :
      l ∈ s.inFlight →
      SchedStep s { s with inFlight := s.inFlight.erase l, finished := l :: s.finished }
  | joinAll (s : SchedState) :
      s.pending = [] → s.inFlight = [] → s.joined = false →
      SchedStep s { s with joined := true }


/-- The scheduler's initial state for a site's link batch: all links
pending, semaphore at its cap of 5, nothing in flight. -/
def schedInit (links : List String) : SchedState := ⟨links, 5, [], [], false⟩


def SchedReachable (links : List String) (s : SchedState) : Prop :=
  Relation.ReflTransGen SchedStep (schedInit links) s


def sixLinks : List String := ["l1", "l2", "l3", "l4", "l5", "l6"]


/-- The state in which all six links have been spawned and none has
finished: every spawn was allowed because acquire/release return the
permit before the next iteration. -/
def sixInFlight : SchedState :=
  ⟨[], 5, ["l6", "l5", "l4", "l3", "l2", "l1"], [], false⟩


lemma topicScoreCode_eq_spec (text url : String) (keywords : List String) :
    topicScoreCode (pyLower text.toList) (pyLower url.toList) keywords
      = specTopicScore text url keywords := by
  have key : ∀ (kws : List String) (acc : Nat),
      kws.foldl
        (fun score keyword =>
          score + pyCount keyword.toList (pyLower text.toList)
            + pyCount keyword.toList (pyLower url.toList) * 2) acc
        = acc + (kws.map
            (fun kw => pyCount kw.toList (pyLower text.toList)
              + 2 * pyCount kw.toList (pyLower url.toList))).sum := by
    intro kws
    induction kws with
    | nil => intro acc; simp
    | cons k ks ih =>
      intro acc
      simp only [List.foldl_cons, List.map_cons, List.sum_cons, ih]
      ring
  simpa [topicScoreCode, specTopicScore] using key keywords 0


lemma foldBest_props (xs : List (String × Nat)) :
    ∀ x : String × Nat,
      (xs.foldl pyArgmaxStep x).2 = max x.2 (specMaxScore xs) ∧
      List.find? (fun p => p.2 == (xs.foldl pyArgmaxStep x).2) (x :: xs)
        = some (xs.foldl pyArgmaxStep x) := by
  induction xs with
  | nil =>
    intro x
    constructor
    · simp [specMaxScore]
    · simp
  | cons y ys ih =>
    intro x
    have hstep : List.foldl pyArgmaxStep x (y :: ys)
        = List.foldl pyArgmaxStep (pyArgmaxStep x y) ys := by
      simp [List.foldl_cons]
    obtain ⟨ihmax, ihfind⟩ := ih (pyArgmaxStep x y)
    have hmax2 : (pyArgmaxStep x y).2 = max x.2 y.2 := by
      by_cases h : x.2 < y.2 <;> simp [pyArgmaxStep, h] <;> omega
    constructor
    · rw [hstep, ihmax, hmax2]
      simp [specMaxScore, List.foldr_cons, Nat.max_assoc]
    · rw [hstep]
      by_cases h : x.2 < y.2
      · -- the running best moved to y; x cannot attain the final value
        have hxy : pyArgmaxStep x y = y := by simp [pyArgmaxStep, h]
        rw [hxy] at ihmax ihfind ⊢
        have hbig : x.2 < (List.foldl pyArgmaxStep y ys).2 := by
          rw [ihmax]; omega
        rw [List.find?_cons_of_neg _ (by simp only [beq_iff_eq]; omega)]
        exact ihfind
      · -- the running best stayed at x
        have hxy : pyArgmaxStep x y = x := by simp [pyArgmaxStep, h]
        rw [hxy] at ihmax ihfind ⊢
        by_cases hx : x.2 = (List.foldl pyArgmaxStep x ys).2
        · have hres : List.foldl pyArgmaxStep x ys = x := by
            have h1 := ihfind
            rw [List.find?_cons_of_pos _ (by simpa using hx)] at h1
            exact (Option.some.inj h1).symm
          rw [List.find?_cons_of_pos _ (by simpa using hx), hres]
        · have hy2 : y.2 ≤ x.2 := by omega
          have hbig : x.2 < (List.foldl pyArgmaxStep x ys).2 := by
            have hle : x.2 ≤ (List.foldl pyArgmaxStep x ys).2 := by
              rw [ihmax]; omega
            omega
          rw [List.find?_cons_of_neg _ (by simp only [beq_iff_eq]; omega),
            List.find?_cons_of_neg _ (by simp only [beq_iff_eq]; omega)]
          have h2 := ihfind
          rw [List.find?_cons_of_neg _ (by simp only [beq_iff_eq]; omega)] at h2
          exact h2


lemma pyMaxByValue_eq_specFirstBest (l : List (String × Nat)) :
    pyMaxByValue l = specFirstBest l := by
  match l with
  | [] => simp [pyMaxByValue, specFirstBest]
  | x :: xs =>
    obtain ⟨hmax, hfind⟩ := foldBest_props xs x
    have hM : specMaxScore (x :: xs) = (xs.foldl pyArgmaxStep x).2 := by
      rw [hmax]; simp [specMaxScore, List.foldr_cons]
    simp only [pyMaxByValue, specFirstBest, hM]
    exact hfind.symm


/-- C3: For every text and url, `_classify_topic` computes for each configured
topic the sum over the topic's keywords of the case-insensitive substring
count in the text plus two times the case-insensitive substring count in
the url; it returns the topic with the maximum score iff that score is
strictly greater than 2 and otherwise none, ties broken by declaration
order of the topic table (`classify_topic_spec` picks the first entry
attaining the maximum, in declaration order).  Text containing "mysql"
three times and "innodb" once with a url containing "mysql" gives the
mysql topic a score of at least 6 and is classified as mysql; text and
url with no keyword occurrences return none. -/
theorem topic_classifier_spec_agreement :
    (∀ text url, classify_topic text url = classify_topic_spec text url)
    ∧ (∀ text url keywords,
        topicScoreCode (pyLower text.toList) (pyLower url.toList) keywords
          = specTopicScore text url keywords)
    ∧ 6 ≤ specTopicScore "mysql mysql mysql innodb" "https://mysql.example.com/tutorial"
        ["mysql", "mariadb", "database", "sql", "innodb"]
    ∧ classify_topic "mysql mysql mysql innodb" "https://mysql.example.com/tutorial"
        = some "mysql"
    ∧ classify_topic "" "" = none := by
  refine ⟨?_, fun text url keywords => topicScoreCode_eq_spec text url keywords,
    by decide, by decide, by decide⟩
  intro text url
  simp only [classify_topic, classify_topic_spec]
  have hmap :
      topic_mapping.map
          (fun p => (p.1, topicScoreCode (pyLower text.toList) (pyLower url.toList) p.2))
        = topic_mapping.map (fun p => (p.1, specTopicScore text url p.2)) := by
    apply List.map_congr_left
    intro p _
    rw [topicScoreCode_eq_spec]
  rw [hmap, pyMaxByValue_eq_specFirstBest]



/-- C8: the Page Gate applies its checks in a fixed order and the first
failing check soft-skips the page (a `skip` value, no exception, nothing
persisted): content-type must contain text/html; a present content-length
must not exceed 1,000,000; a meta-robots content containing noindex or
nofollow rejects; the raw body and the extracted text must be non-empty
with at least 500 characters of text; the detected language must be "en";
only a page passing every check reaches classification and persistence. -/
theorem page_gate_order :
    ∀ url p,
      (pyInStr "text/html" p.ctype = false → pageGate url p = .skip "non-html")
      ∧ (∀ n, pyInStr "text/html" p.ctype = true → p.clen = some n → 1000000 < n →
          pageGate url p = .skip "too-large")
      ∧ (∀ c, pyInStr "text/html" p.ctype = true →
          (∀ n, p.clen = some n → n ≤ 1000000) → p.metaRobots = some c →
          (pyCount "noindex".toList (pyLower c.toList) ≠ 0
            ∨ pyCount "nofollow".toList (pyLower c.toList) ≠ 0) →
          pageGate url p = .skip "meta-robots")
      ∧ ((∃ t, pageGate url p = .saved t) ↔
          pyInStr "text/html" p.ctype = true
          ∧ (∀ n, p.clen = some n → n ≤ 1000000)
          ∧ (∀ c, p.metaRobots = some c →
              pyCount "noindex".toList (pyLower c.toList) = 0
              ∧ pyCount "nofollow".toList (pyLower c.toList) = 0)
          ∧ p.html ≠ ""
          ∧ (∃ text, p.extracted = some text ∧ 500 ≤ text.length)
          ∧ p.lang = .ok "en")
      ∧ (∀ t, pageGate url p = .saved t →
          ∃ text, p.extracted = some text ∧ t = (classify_topic text url).getD "general")
      ∧ (∀ reason, pageGate url p = .skip reason → pageWrites url p = []) := by
  intro url p
  refine ⟨?_, ?_, ?_, ?_, ?_, ?_⟩
  · intro hc
    simp [pageGate, hc]
  · intro n hc hcl hn
    simp [pageGate, hc, hcl, hn]
  · intro c hc hle hm hdis
    have hz : ¬(pyCount "noindex".toList (pyLower c.toList) = 0
        ∧ pyCount "nofollow".toList (pyLower c.toList) = 0) := by
      rcases hdis with h | h
      · exact fun hand => h hand.1
      · exact fun hand => h hand.2
    cases hcl : p.clen with
    | none =>
      simp [pageGate, metaRobotsGate, hc, hcl, hm]
      intro ha hbz
      exact absurd ⟨ha, hbz⟩ hz
    | some n =>
      have hn := hle n hcl
      simp [pageGate, metaRobotsGate, hc, hcl, hm, Nat.not_lt.mpr hn]
      intro ha hbz
      exact absurd ⟨ha, hbz⟩ hz
  · constructor
    · rintro ⟨t, ht⟩
      unfold pageGate metaRobotsGate process_page at ht
      repeat' split at ht
      all_goals simp_all
    · rintro ⟨hc, hclen, hmeta, hhtml, ⟨text, hext, hlen⟩, hlang⟩
      refine ⟨(classify_topic text url).getD "general", ?_⟩
      cases hcl : p.clen with
      | none =>
        cases hm : p.metaRobots with
        | none =>
          simp [pageGate, metaRobotsGate, process_page, hc, hcl, hm, hext, hlang, hhtml,
            Nat.not_lt.mpr hlen]
        | some c =>
          obtain ⟨hz1, hz2⟩ := hmeta c hm
          simp [pageGate, metaRobotsGate, process_page, hc, hcl, hm, hext, hlang, hhtml,
            Nat.not_lt.mpr hlen]
          exact ⟨hz1, hz2⟩
      | some n =>
        have hle := hclen n hcl
        cases hm : p.metaRobots with
        | none =>
          simp [pageGate, metaRobotsGate, process_page, hc, hcl, hm, hext, hlang, hhtml,
            Nat.not_lt.mpr hle, Nat.not_lt.mpr hlen]
        | some c =>
          obtain ⟨hz1, hz2⟩ := hmeta c hm
          simp [pageGate, metaRobotsGate, process_page, hc, hcl, hm, hext, hlang, hhtml,
            Nat.not_lt.mpr hle, Nat.not_lt.mpr hlen]
          exact ⟨hz1, hz2⟩
  · intro t ht
    unfold pageGate metaRobotsGate process_page at ht
    repeat' split at ht
    all_goals simp_all
  · intro reason hr
    simp [pageWrites, hr]


/-- Witness for page_gate_order at a concrete page: a non-HTML content
type is skipped with reason non-html and persists nothing. -/
theorem page_gate_order_witness :
    pageGate "https://example.com/a" pageNonHtml = PageOutcome.skip "non-html"
    ∧ pageWrites "https://example.com/a" pageNonHtml = [] :=
  ⟨(page_gate_order "https://example.com/a" pageNonHtml).1 (by decide),
   (page_gate_order "https://example.com/a" pageNonHtml).2.2.2.2.2 "non-html"
     ((page_gate_order "https://example.com/a" pageNonHtml).1 (by decide))⟩


/-- C2 counterexample: three consecutive 429 responses produce THREE
backoff sleeps of 1s, 2s and 4s (the loop sleeps after every 429,
including the third and final attempt), not the two sleeps of 1s and 2s
stated in the claim. -/
theorem fetch_retry_sleeps_counterexample :
    (process_link "https://example.com/a" (fun _ => FetchOutcome.resp 429 pageEx)).sleeps
      = [1, 2, 4]
    ∧ (process_link "https://example.com/a" (fun _ => FetchOutcome.resp 429 pageEx)).sleeps
      ≠ [1, 2] := by
  constructor <;> norm_num [process_link, runRetryLoop]


/-- C2 (amended): the per-link fetch makes at most 3 total attempts (the
result depends only on the first three attempt outcomes); three
consecutive 429 responses exhaust the retries and silently abandon the
URL with exactly 3 backoff sleeps of 1s, 2s, 4s and 3 logged backoff
events; any other status at least 400 abandons the URL with no retry and
no sleep; three transport-level exceptions likewise sleep 1s, 2s, 4s and
abandon; a below-400 first response is processed immediately.  No path
raises or marks the task failed: every path yields a `LinkResult`. -/
theorem fetch_retry_bounded_backoff :
    (∀ url env env2, env 0 = env2 0 → env 1 = env2 1 → env 2 = env2 2 →
      process_link url env = process_link url env2)
    ∧ (∀ url env page, (∀ i, i < 3 → env i = FetchOutcome.resp 429 page) →
        process_link url env = ⟨.exhausted, [1, 2, 4], 3⟩)
    ∧ (∀ url env s page, 400 ≤ s → s ≠ 429 → s ≠ 403 → env 0 = FetchOutcome.resp s page →
        process_link url env = ⟨.fetchError s, [], 0⟩)
    ∧ (∀ url env, (∀ i, i < 3 → env i = FetchOutcome.exc) →
        process_link url env = ⟨.exhausted, [1, 2, 4], 0⟩)
    ∧ (∀ url env s page, s < 400 → env 0 = FetchOutcome.resp s page →
        process_link url env = ⟨.done (pageGate url page), [], 0⟩) := by
  refine ⟨?_, ?_, ?_, ?_, ?_⟩
  · intro url env env2 h0 h1 h2
    simp [process_link, h0, h1, h2]
  · intro url env page h
    have h0 := h 0 (by omega)
    have h1 := h 1 (by omega)
    have h2 := h 2 (by omega)
    norm_num [process_link, runRetryLoop, h0, h1, h2]
  · intro url env s page hge h429 h403 h0
    have hcond : ¬(s = 429 ∨ s = 403) := by
      rintro (rfl | rfl) <;> simp at h429 h403
    simp [process_link, runRetryLoop, h0, hcond, hge]
  · intro url env h
    have h0 := h 0 (by omega)
    have h1 := h 1 (by omega)
    have h2 := h 2 (by omega)
    norm_num [process_link, runRetryLoop, h0, h1, h2]
  · intro url env s page hlt h0
    have hcond : ¬(s = 429 ∨ s = 403) := by
      rintro (rfl | rfl) <;> omega
    simp [process_link, runRetryLoop, h0, hcond, Nat.not_le.mpr hlt]


/-- Witness for fetch_retry_bounded_backoff at concrete inputs: three
exceptions give sleeps 1s, 2s, 4s and a silent abandonment; a 404
abandons immediately with no sleep. -/
theorem fetch_retry_bounded_backoff_witness :
    process_link "https://example.com/a" (fun _ => FetchOutcome.exc)
      = ⟨.exhausted, [1, 2, 4], 0⟩
    ∧ process_link "https://example.com/a" (fun _ => FetchOutcome.resp 404 pageEx)
      = ⟨.fetchError 404, [], 0⟩ :=
  ⟨fetch_retry_bounded_backoff.2.2.2.1 "https://example.com/a" _ (fun _ _ => rfl),
   fetch_retry_bounded_backoff.2.2.1 "https://example.com/a" _ 404 pageEx
     (by norm_num) (by norm_num) (by norm_num) rfl⟩


lemma runRobotsRequests_count (env : RobotsEnv) (reqs : List (String × String)) :
    ∀ (cache : List (String × RobotsPolicy)) (fetched : List String) (h : String),
      fetched.count h ≤ 1 →
      (h ∈ fetched → (cache.find? (fun e => e.1 == h)).isSome) →
      (runRobotsRequests env reqs cache fetched).2.count h ≤ 1 := by
  induction reqs with
  | nil =>
    intro cache fetched h hcount _
    simpa [runRobotsRequests] using hcount
  | cons req rest ih =>
    intro cache fetched h hcount hmem
    obtain ⟨scheme, netloc⟩ := req
    by_cases hresp : env.respect = false
    · have hr : get_robots env cache scheme netloc = (none, cache, false) := by
        simp [get_robots, hresp]
      simp only [runRobotsRequests, hr]
      exact ih cache fetched h hcount hmem
    · cases hfind : cache.find? (fun e => e.1 == netloc) with
      | some e =>
        have hr : get_robots env cache scheme netloc = (some e.2, cache, false) := by
          simp [get_robots, hresp, hfind]
        simp only [runRobotsRequests, hr]
        exact ih cache fetched h hcount hmem
      | none =>
        have hr : (get_robots env cache scheme netloc).2.1
              = (netloc, (get_robots env cache scheme netloc).1.getD emptyPolicy) :: cache
            ∧ (get_robots env cache scheme netloc).2.2 = true := by
          simp [get_robots, hresp, hfind]
        simp only [runRobotsRequests, hr.1, hr.2, if_true]
        apply ih
        · by_cases hh : h = netloc
          · subst hh
            have hnotmem : h ∉ fetched := by
              intro hmem2
              have := hmem hmem2
              rw [hfind] at this
              simp at this
            rw [List.count_cons_self]
            rw [List.count_eq_zero.mpr hnotmem]
          · rw [List.count_cons_of_ne hh]
            exact hcount
        · intro hmem2
          by_cases hh : h = netloc
          · subst hh
            simp [List.find?_cons]
          · rcases List.mem_cons.mp hmem2 with rfl | hmem3
            · exact absurd rfl hh
            · have hprev := hmem hmem3
              rw [List.find?_cons_of_neg _
                (by simp only [beq_iff_eq]; exact fun heq => hh heq.symm)]
              exact hprev


/-- C4: the Robots Policy Cache is asymmetric: a failed or non-success
robots.txt fetch yields the empty allow-all policy (fail open) and the
policy is cached per host — over any request sequence at most one
robots.txt fetch is issued per host; whereas an exception from the parsed
rule evaluation (`can_fetch`) makes `_allowed_by_robots` return false
(fail closed); with robots compliance disabled, every URL is allowed. -/
theorem robots_policy_asymmetry :
    (∀ env cache scheme netloc, env.respect = true →
        cache.find? (fun e => e.1 == netloc) = none →
        (env.fetch (robotsUrl scheme netloc) = .exc
          ∨ ∃ st lines, env.fetch (robotsUrl scheme netloc) = .resp st lines ∧ 400 ≤ st) →
        (get_robots env cache scheme netloc).1 = some emptyPolicy
          ∧ (get_robots env cache scheme netloc).2.1 = (netloc, emptyPolicy) :: cache)
    ∧ (∀ respect url, allowed_by_robots respect (some emptyPolicy) url = true)
    ∧ (∀ env cache scheme netloc e, env.respect = true →
        cache.find? (fun e2 => e2.1 == netloc) = some e →
        get_robots env cache scheme netloc = (some e.2, cache, false))
    ∧ (∀ env reqs h, ((runRobotsRequests env reqs [] []).2.count h ≤ 1))
    ∧ (∀ p url, p.canFetch url = .error () → allowed_by_robots true (some p) url = false)
    ∧ (∀ rp url, allowed_by_robots false rp url = true)
    ∧ (∀ env cache scheme netloc, env.respect = false →
        get_robots env cache scheme netloc = (none, cache, false))
    ∧ (∀ url, allowed_by_robots true none url = true) := by
  refine ⟨?_, ?_, ?_, ?_, ?_, ?_, ?_, ?_⟩
  · intro env cache scheme netloc hresp hfind hfail
    rcases hfail with hexc | ⟨st, lines, hresp3, hst⟩
    · constructor <;> simp [get_robots, hresp, hfind, hexc]
    · constructor <;> simp [get_robots, hresp, hfind, hresp3, hst]
  · intro respect url
    cases respect <;> simp [allowed_by_robots, emptyPolicy]
  · intro env cache scheme netloc e hresp hfind
    simp [get_robots, hresp, hfind]
  · intro env reqs h
    exact runRobotsRequests_count env reqs [] [] h (by simp) (by simp)
  · intro p url herr
    simp [allowed_by_robots, herr]
  · intro rp url
    simp [allowed_by_robots]
  · intro env cache scheme netloc hresp
    simp [get_robots, hresp]
  · intro url
    simp [allowed_by_robots]


/-- Witness for robots_policy_asymmetry at concrete inputs: a raising
fetch yields the allow-all policy; a raising `can_fetch` denies; two
requests for the same host fetch robots.txt at most once. -/
theorem robots_policy_asymmetry_witness :
    (get_robots robotsEnvExc [] "https" "example.com").1 = some emptyPolicy
    ∧ allowed_by_robots true (some errPolicy) "https://example.com/a" = false
    ∧ (runRobotsRequests robotsEnvExc
        [("https", "example.com"), ("https", "example.com")] [] []).2.count "example.com"
      ≤ 1 :=
  ⟨(robots_policy_asymmetry.1 robotsEnvExc [] "https" "example.com" rfl rfl (Or.inl rfl)).1,
   robots_policy_asymmetry.2.2.2.2.1 errPolicy "https://example.com/a" rfl,
   robots_policy_asymmetry.2.2.2.1 robotsEnvExc
     [("https", "example.com"), ("https", "example.com")] "example.com"⟩


/-- C5: starting while running raises the "already running" error and
mutates no state (the state after the call is exactly the state before,
including the running task's entry); starting while idle returns a fresh
task id, sets it as current, sets the running flag and creates the task
with status started and progress 0. -/
theorem start_crawl_reentrancy :
    ∀ (s : CrawlerState) (newId : String),
      (s.is_running = true →
        start_crawl s newId = (.error "Crawler is already running", s))
      ∧ (s.is_running = false →
        (start_crawl s newId).1 = .ok newId
        ∧ (start_crawl s newId).2.is_running = true
        ∧ (start_crawl s newId).2.current_task_id = some newId
        ∧ (start_crawl s newId).2.tasks = (newId, ⟨"started", 0⟩) :: s.tasks) := by
  intro s newId
  constructor
  · intro h
    simp [start_crawl, h]
  · intro h
    refine ⟨?_, ?_, ?_, ?_⟩ <;> simp [start_crawl, h]


/-- Witness for start_crawl_reentrancy at concrete states: a running
crawler rejects a second start unchanged; an idle one starts. -/
theorem start_crawl_reentrancy_witness :
    start_crawl ⟨true, some "t1", [("t1", ⟨"running", 50⟩)]⟩ "t2"
      = (.error "Crawler is already running", ⟨true, some "t1", [("t1", ⟨"running", 50⟩)]⟩)
    ∧ (start_crawl ⟨false, none, []⟩ "t3").1 = .ok "t3" :=
  ⟨(start_crawl_reentrancy ⟨true, some "t1", [("t1", ⟨"running", 50⟩)]⟩ "t2").1 rfl,
   ((start_crawl_reentrancy ⟨false, none, []⟩ "t3").2 rfl).1⟩


/-- C10: stop_crawl always leaves `is_running` false and
`current_task_id` none; it writes a stopped status only when a current
task id was set and performs no task-store write when idle; a second
call is a no-op returning the same state with no writes, so stopping
twice (or stopping an idle crawler) equals stopping once. -/
theorem stop_crawl_idempotent :
    ∀ s : CrawlerState,
      (stop_crawl s).1.is_running = false
      ∧ (stop_crawl s).1.current_task_id = none
      ∧ (s.current_task_id = none →
          (stop_crawl s).2 = [] ∧ (stop_crawl s).1.tasks = s.tasks)
      ∧ (∀ tid, s.current_task_id = some tid →
          (stop_crawl s).2 = [DbWrite.taskStatus tid "stopped"]
          ∧ (stop_crawl s).1.tasks = update_task s.tasks tid "stopped")
      ∧ stop_crawl (stop_crawl s).1 = ((stop_crawl s).1, []) := by
  intro s
  cases h : s.current_task_id with
  | none =>
    refine ⟨?_, ?_, ?_, ?_, ?_⟩ <;> simp [stop_crawl, h]
  | some tid =>
    refine ⟨?_, ?_, ?_, ?_, ?_⟩ <;> simp [stop_crawl, h]


/-- Witness for stop_crawl_idempotent at a concrete state: stopping a
running crawler writes one stopped status and a second stop writes
nothing and fixes the state. -/
theorem stop_crawl_idempotent_witness :
    (stop_crawl ⟨true, some "t1", [("t1", ⟨"running", 50⟩)]⟩).2
      = [DbWrite.taskStatus "t1" "stopped"]
    ∧ (stop_crawl ⟨false, none, [("t1", ⟨"running", 50⟩)]⟩).2 = []
    ∧ stop_crawl (stop_crawl ⟨true, some "t1", [("t1", ⟨"running", 50⟩)]⟩).1
      = ((stop_crawl ⟨true, some "t1", [("t1", ⟨"running", 50⟩)]⟩).1, []) :=
  ⟨((stop_crawl_idempotent ⟨true, some "t1", [("t1", ⟨"running", 50⟩)]⟩).2.2.2.1 "t1" rfl).1,
   ((stop_crawl_idempotent ⟨false, none, [("t1", ⟨"running", 50⟩)]⟩).2.2.1 rfl).1,
   (stop_crawl_idempotent ⟨true, some "t1", [("t1", ⟨"running", 50⟩)]⟩).2.2.2.2⟩


lemma runLoopGo_stop (n : Nat) (running : Nat → Bool) (i0 : Nat)
    (h0 : running i0 = false) (hpre : ∀ j, j < i0 → running j = true) :
    ∀ (ts : List String) (i : Nat), i ≤ i0 →
      (runLoopGo n running none ts i).1 = ts.take (i0 - i) := by
  intro ts
  induction ts with
  | nil => intro i _; simp [runLoopGo]
  | cons t rest ih =>
    intro i hle
    by_cases hi : i = i0
    · subst hi
      simp [runLoopGo, h0]
    · have hlt : i < i0 := lt_of_le_of_ne hle hi
      have hri : running i = true := hpre i hlt
      simp only [runLoopGo, hri]
      rw [if_neg (by simp), if_neg (by simp)]
      rw [ih (i + 1) (by omega)]
      have hsub : i0 - i = (i0 - (i + 1)) + 1 := by omega
      rw [hsub]
      simp [List.take_succ_cons]


lemma runLoopGo_status (n : Nat) (running : Nat → Bool) (excAt : Option Nat) :
    ∀ (ts : List String) (i : Nat),
      (runLoopGo n running excAt ts i).2.2 = "completed"
      ∨ (runLoopGo n running excAt ts i).2.2 = "failed" := by
  intro ts
  induction ts with
  | nil => intro i; left; simp [runLoopGo]
  | cons t rest ih =>
    intro i
    by_cases hr : running i = false
    · left; simp [runLoopGo, hr]
    · have hr2 : running i = true := by simpa using hr
      by_cases he : excAt = some i
      · right; simp [runLoopGo, hr2, he]
      · have := ih (i + 1)
        simpa only [runLoopGo, hr2, he, Bool.true_eq_false, if_false, if_neg he] using this


lemma runLoopGo_writes (n : Nat) (running : Nat → Bool) (excAt : Option Nat) :
    ∀ (ts : List String) (i : Nat),
      ∃ m, m ≤ ts.length ∧
        (runLoopGo n running excAt ts i).2.1
          = (List.range m).map
              (fun j : Nat => (((i : ℚ) + (j : ℚ) + 1) / (n : ℚ)) * 100) := by
  intro ts
  induction ts with
  | nil => intro i; exact ⟨0, by simp, by simp [runLoopGo]⟩
  | cons t rest ih =>
    intro i
    by_cases hr : running i = false
    · exact ⟨0, by simp, by simp [runLoopGo, hr]⟩
    · have hr2 : running i = true := by simpa using hr
      by_cases he : excAt = some i
      · exact ⟨0, by simp, by simp [runLoopGo, hr2, he]⟩
      · obtain ⟨m, hm, hw⟩ := ih (i + 1)
        refine ⟨m + 1, by simpa using Nat.succ_le_succ hm, ?_⟩
        simp only [runLoopGo, hr2]
        rw [if_neg (by simp), if_neg he]
        simp only []
        rw [hw, List.range_succ_eq_map, List.map_cons, List.map_map]
        congr 1
        · push_cast
          ring
        · apply List.map_congr_left
          intro j _
          simp only [Function.comp]
          push_cast
          ring


/-- C6: when the stop request flips `is_running` to false before the check
of seed site `i`, the loop breaks there, so exactly the first `i` seed
sites are processed and none beyond the one in flight; the task always
lands in a terminal status (stopped, completed or failed); and on every
exit path the finalizer leaves the running flag false, the current task
id cleared and the HTTP client released. -/
theorem run_crawl_stop_and_finalizer :
    ∀ (targets : List String) (running : Nat → Bool) (excAt : Option Nat),
      (run_crawl targets running excAt).finalRunning = false
      ∧ (run_crawl targets running excAt).finalTaskId = none
      ∧ (run_crawl targets running excAt).clientReleased = true
      ∧ ((run_crawl targets running excAt).finalStatus = "stopped"
          ∨ (run_crawl targets running excAt).finalStatus = "completed"
          ∨ (run_crawl targets running excAt).finalStatus = "failed")
      ∧ (∀ i, running i = false → (∀ j, j < i → running j = true) → excAt = none →
          (run_crawl targets running excAt).processedSites = targets.take i) := by
  intro targets running excAt
  refine ⟨rfl, rfl, rfl, ?_, ?_⟩
  · rcases runLoopGo_status targets.length running excAt targets 0 with h | h
    · right; left; exact h
    · right; right; exact h
  · intro i h0 hpre hexc
    subst hexc
    have := runLoopGo_stop targets.length running i h0 hpre targets 0 (by omega)
    simpa [run_crawl] using this


/-- Witness for run_crawl_stop_and_finalizer: with three seed sites and a
stop observed before site index 1, only the first site is processed and
the finalizer fields are cleared. -/
theorem run_crawl_stop_and_finalizer_witness :
    (run_crawl ["a", "b", "c"] (fun j => decide (j < 1)) none).processedSites
      = List.take 1 ["a", "b", "c"]
    ∧ (run_crawl ["a", "b", "c"] (fun j => decide (j < 1)) none).finalRunning = false :=
  ⟨(run_crawl_stop_and_finalizer ["a", "b", "c"] (fun j => decide (j < 1)) none).2.2.2.2 1
      (by decide) (fun j hj => by
        have hj0 : j = 0 := by omega
        subst hj0
        decide) rfl,
   (run_crawl_stop_and_finalizer ["a", "b", "c"] (fun j => decide (j < 1)) none).1⟩


/-- C7: progress is written only by the orchestrator loop, once per
completed seed site: the j-th written value (0-based) is
((j+1)/n) * 100 for n seed sites, so the written sequence is monotonically
non-decreasing and every value lies in [0, 100]; the page pipeline issues
no progress write at all. -/
theorem progress_monotone_bounded :
    ∀ (targets : List String) (running : Nat → Bool) (excAt : Option Nat) (ws : List ℚ),
      ws = (run_crawl targets running excAt).progressWrites →
      (∀ j (hj : j < ws.length),
          ws.get ⟨j, hj⟩ = (((j : ℚ) + 1) / (targets.length : ℚ)) * 100)
      ∧ ws.length ≤ targets.length
      ∧ (∀ j1 j2 (h1 : j1 < ws.length) (h2 : j2 < ws.length), j1 ≤ j2 →
          ws.get ⟨j1, h1⟩ ≤ ws.get ⟨j2, h2⟩)
      ∧ (∀ w ∈ ws, 0 ≤ w ∧ w ≤ 100)
      ∧ (∀ url p tid v, DbWrite.progress tid v ∉ pageWrites url p) := by
  intro targets running excAt ws hws
  obtain ⟨m, hm, hw⟩ := runLoopGo_writes targets.length running excAt targets 0
  have hws2 : ws = (List.range m).map
      (fun j : Nat => (((j : ℚ) + 1) / (targets.length : ℚ)) * 100) := by
    rw [hws]
    show (runLoopGo targets.length running excAt targets 0).2.1 = _
    rw [hw]
    apply List.map_congr_left
    intro j _
    push_cast
    ring
  have hlen : ws.length = m := by simp [hws2]
  have hget : ∀ j (hj : j < ws.length),
      ws.get ⟨j, hj⟩ = (((j : ℚ) + 1) / (targets.length : ℚ)) * 100 := by
    intro j hj
    have hj2 : j < m := by omega
    simp [hws2, List.get_eq_getElem]
  refine ⟨hget, by omega, ?_, ?_, ?_⟩
  · intro j1 j2 h1 h2 hle
    rw [hget j1 h1, hget j2 h2]
    by_cases hn : targets.length = 0
    · simp [hn]
    · have hnn : (0 : ℚ) < (targets.length : ℚ) := by
        exact_mod_cast Nat.pos_of_ne_zero hn
      have hj : ((j1 : ℚ) + 1) ≤ ((j2 : ℚ) + 1) := by
        have : (j1 : ℚ) ≤ (j2 : ℚ) := by exact_mod_cast hle
        linarith
      have hdiv : ((j1 : ℚ) + 1) / (targets.length : ℚ)
          ≤ ((j2 : ℚ) + 1) / (targets.length : ℚ) := by
        apply div_le_div_of_nonneg_right hj hnn.le
      linarith
  · intro w hmem
    rw [hws2] at hmem
    obtain ⟨j, hj, rfl⟩ := List.mem_map.mp hmem
    have hjm : j < m := List.mem_range.mp hj
    have hjn : j + 1 ≤ targets.length := by omega
    have hpos : 0 < targets.length := by omega
    have hnn : (0 : ℚ) < (targets.length : ℚ) := by exact_mod_cast hpos
    constructor
    · positivity
    · have hd : ((j : ℚ) + 1) / (targets.length : ℚ) ≤ 1 := by
        rw [div_le_one hnn]
        exact_mod_cast hjn
      linarith
  · intro url p tid v
    unfold pageWrites
    split <;> simp


/-- Witness for progress_monotone_bounded at a concrete run: with two
seed sites the progress write list has at most two entries, and the page
pipeline issues no progress write for a concrete page. -/
theorem progress_monotone_bounded_witness :
    (run_crawl ["a", "b"] (fun _ => true) none).progressWrites.length ≤ 2
    ∧ DbWrite.progress "t" 50 ∉ pageWrites "https://example.com/a" pageEx :=
  ⟨(progress_monotone_bounded ["a", "b"] (fun _ => true) none _ rfl).2.1,
   (progress_monotone_bounded ["a", "b"] (fun _ => true) none _ rfl).2.2.2.2
     "https://example.com/a" pageEx "t" 50⟩


/-- C9 counterexample: with six candidate links the scheduler can reach a
state with six link-processing units in flight at once — the semaphore,
acquired and released around task creation only, does not bound in-flight
concurrency at 5. -/
theorem sched_cap_counterexample :
    SchedReachable sixLinks sixInFlight ∧ 5 < sixInFlight.inFlight.length := by
  constructor
  · refine Relation.ReflTransGen.head
      (SchedStep.spawn _ "l1" _ rfl (by decide) rfl) ?_
    refine Relation.ReflTransGen.head
      (SchedStep.spawn _ "l2" _ rfl (by decide) rfl) ?_
    refine Relation.ReflTransGen.head
      (SchedStep.spawn _ "l3" _ rfl (by decide) rfl) ?_
    refine Relation.ReflTransGen.head
      (SchedStep.spawn _ "l4" _ rfl (by decide) rfl) ?_
    refine Relation.ReflTransGen.head
      (SchedStep.spawn _ "l5" _ rfl (by decide) rfl) ?_
    refine Relation.ReflTransGen.head
      (SchedStep.spawn _ "l6" _ rfl (by decide) rfl) ?_
    exact Relation.ReflTransGen.refl
  · decide


/-- C9 (amended): the semaphore is acquired and immediately released
around task creation, so along every reachable scheduler state its value
stays exactly 5 and it never gates a spawn (any number of links may be in
flight simultaneously); the orchestrator does await full completion of
the site's link batch — a joined state has no pending and no in-flight
unit — and sites are processed strictly sequentially, the processed-site
list being a prefix of the configured targets. -/
theorem sched_cap_nominal :
    (∀ links s, SchedReachable links s →
      s.semCount = 5 ∧ (s.joined = true → s.pending = [] ∧ s.inFlight = []))
    ∧ (∀ targets running excAt,
        (run_crawl targets running excAt).processedSites <+: targets) := by
  constructor
  · intro links s h
    induction h with
    | refl => exact ⟨rfl, by intro h2; cases h2⟩
    | tail hstep step ih =>
      cases step with
      | spawn l rest hp hsem hj =>
        refine ⟨ih.1, ?_⟩
        intro h2
        simp [hj] at h2
      | finish l hmem =>
        refine ⟨ih.1, ?_⟩
        intro h2
        obtain ⟨hpend, hfl⟩ := ih.2 h2
        refine ⟨hpend, ?_⟩
        show List.erase _ l = []
        rw [hfl]
        rfl
      | joinAll hp hf hj =>
        exact ⟨ih.1, fun _ => ⟨hp, hf⟩⟩
  · intro targets running excAt
    show (runLoopGo targets.length running excAt targets 0).1 <+: targets
    have key : ∀ (ts : List String) (i : Nat),
        (runLoopGo targets.length running excAt ts i).1 <+: ts := by
      intro ts
      induction ts with
      | nil => intro i; simp [runLoopGo]
      | cons t rest ih =>
        intro i
        by_cases hr : running i = false
        · simp [runLoopGo, hr]
        · have hr2 : running i = true := by simpa using hr
          by_cases he : excAt = some i
          · simp [runLoopGo, hr2, he]
          · simp only [runLoopGo, hr2]
            rw [if_neg (by simp), if_neg he]
            obtain ⟨suf, hsuf⟩ := ih (i + 1)
            exact ⟨suf, by rw [List.cons_append, hsuf]⟩
    exact key targets 0


/-- Witness for sched_cap_nominal: the initial scheduler state of an
empty batch is reachable and satisfies the invariant, and a concrete run
processes a prefix of its targets. -/
theorem sched_cap_nominal_witness :
    ((schedInit []).semCount = 5
      ∧ ((schedInit []).joined = true → (schedInit []).pending = []
          ∧ (schedInit []).inFlight = []))
    ∧ (run_crawl ["a"] (fun _ => true) none).processedSites <+: ["a"] :=
  ⟨sched_cap_nominal.1 [] (schedInit []) Relation.ReflTransGen.refl,
   sched_cap_nominal.2 ["a"] (fun _ => true) none⟩

/-- Witness for topic_classifier_spec_agreement at a concrete input: the
mysql example is classified as mysql. -/
theorem topic_classifier_spec_agreement_witness :
    classify_topic "mysql mysql mysql innodb" "https://mysql.example.com/tutorial"
      = some "mysql" :=
  topic_classifier_spec_agreement.2.2.2.1
